import Mathlib

/-!
Verification of the shield-drug training pipeline.

Shallow embedding of the Python sources under `training/`:
the Partition Engine (`utils/dataset_preparation.py`, `split_dataset`),
the Pair Sampler (`scripts/train_authenticity_verifier.py`,
`create_siamese_pairs`), and the Orchestrator / Job Runner /
Prerequisite Checker (`train_all_models.py`).

Machine floats in the source are embedded as rationals; every concrete
input used in a theorem below was checked to behave identically under
IEEE-754 double arithmetic and under exact rational arithmetic.
Randomness (`random.shuffle`, `random.sample`, `random.choice`) is
embedded as explicit oracle parameters (a permutation function, index
oracles), so every theorem is quantified over all possible draws.
-/

/-! ## Partition Engine: `split_dataset` (dataset_preparation.py, lines 235-316) -/

/-- One category's split, mirroring lines 270-280 of
`dataset_preparation.py`: after the shuffle,
`n_train = int(n_total * train_ratio)`, `n_val = int(n_total * val_ratio)`,
`train = files[:n_train]`, `val = files[n_train:n_train+n_val]`,
`test = files[n_train+n_val:]`.  Python `int()` on the nonnegative
products used here is the floor. -/
def splitCategory {α : Type} (files : List α) (a b : ℚ) :
    List α × List α × List α :=
  let nTotal := files.length
  let nTrain := (⌊(nTotal : ℚ) * a⌋).toNat
  let nVal := (⌊(nTotal : ℚ) * b⌋).toNat
  (files.take nTrain, (files.drop nTrain).take nVal, files.drop (nTrain + nVal))

/-- A filesystem mutation performed by `split_dataset`. -/
inductive FsEffect : Type
  | mkdir (path : String)
  | copy (src dst : String)
deriving DecidableEq, Repr

/-- The image tree input to `split_dataset`: for each class directory
that exists, its categories with their image file lists. `none` models a
missing `authentic` / `counterfeit` directory (line 253: skipped). -/
structure ImagesTree : Type where
  authentic : Option (List (String × List String))
  counterfeit : Option (List (String × List String))

/-- The six split directories created up front (lines 243-247). -/
def splitDirEffects : List FsEffect :=
  (["train", "val", "test"].map fun split =>
    ["authentic", "counterfeit"].map fun t =>
      FsEffect.mkdir ("processed/" ++ split ++ "/" ++ t)).flatten

/-- Effects for one category (lines 256-289): empty categories are
skipped; otherwise the shuffled list is split and each slice copied into
its split/class/category directory. `shuffle` is the oracle standing for
`random.shuffle`. -/
def categoryEffects (shuffle : List String → List String) (a b : ℚ)
    (t : String) (cat : String × List String) : List FsEffect :=
  if cat.2 = [] then []
  else
    let s := splitCategory (shuffle cat.2) a b
    ([("train", s.1), ("val", s.2.1), ("test", s.2.2)].map fun p =>
      FsEffect.mkdir ("processed/" ++ p.1 ++ "/" ++ t ++ "/" ++ cat.1) ::
        p.2.map fun f =>
          FsEffect.copy f ("processed/" ++ p.1 ++ "/" ++ t ++ "/" ++ cat.1 ++ "/" ++ f)).flatten

/-- Effects for one class directory; a missing directory contributes
nothing (line 253-254). -/
def typeEffects (shuffle : List String → List String) (a b : ℚ)
    (t : String) : Option (List (String × List String)) → List FsEffect
  | none => []
  | some cats => (cats.map (categoryEffects shuffle a b t)).flatten

/-- `split_dataset` (lines 235-316): validates that the three ratios sum
to 1.0 within 1e-6 (line 237: `abs(train+val+test-1.0) > 1e-6` raises
`ValueError` before anything else), then creates the split directories
and copies every category's files.  Returns the outcome together with
the ordered list of filesystem effects performed. -/
def split_dataset (a b c : ℚ) (tree : ImagesTree)
    (shuffle : List String → List String) :
    Except String Unit × List FsEffect :=
  if 1/1000000 < |a + b + c - 1| then
    (Except.error "Ratios must sum to 1.0", [])
  else
    (Except.ok (),
      splitDirEffects ++
        typeEffects shuffle a b "authentic" tree.authentic ++
        typeEffects shuffle a b "counterfeit" tree.counterfeit)

/-! ## Orchestrator and Job Runner (`train_all_models.py`) -/

/-- Job lifecycle status (`training_status[...]['status']`, lines 38-42). -/
inductive Status : Type
  | pending
  | running
  | completed
  | failed
deriving DecidableEq, Repr

/-- How the spawned training subprocess ends: normal termination with an
exit code, or a Python exception (of class `Exception`) raised while
spawning or streaming. -/
inductive RunResult : Type
  | exited (code : Int)
  | raised (msg : String)
deriving DecidableEq, Repr

/-- One entry of `self.training_status` (lines 38-42). Times are opaque
tick values. -/
structure JobState : Type where
  status : Status
  startTime : Option Nat
  endTime : Option Nat
  error : Option String
deriving DecidableEq, Repr

/-- Initial per-job entry (line 39): pending, no times, no error. -/
def initialJob : JobState :=
  ⟨Status.pending, none, none, none⟩

/-- `s` is a terminal status. -/
def isTerminal : Status → Bool
  | Status.completed => true
  | Status.failed => true
  | _ => false

/-- The status written once the subprocess outcome is known
(lines 160-171). -/
def finalStatusOf : RunResult → Status
  | RunResult.exited code => if code = 0 then Status.completed else Status.failed
  | RunResult.raised _ => Status.failed

/-- `train_model` (lines 114-177) acting on one job's status entry:
sets status to running and records the start time (lines 118-119), runs
the subprocess, then classifies the outcome — exit code 0 marks the job
completed and returns True (lines 160-162, 177); a non-zero exit code
marks it failed with the code in the error text and returns False
(lines 163-167); a raised exception marks it failed with the exception
text and returns False (lines 169-173); the `finally` clause always
records the end time (lines 174-175). -/
def train_model (t0 t1 : Nat) (r : RunResult) (st : JobState) :
    Bool × JobState :=
  let st1 : JobState :=
    { st with status := Status.running, startTime := some t0 }
  let st2 : JobState :=
    match r with
    | RunResult.exited code =>
        if code = 0 then { st1 with status := Status.completed }
        else
          { st1 with
            status := Status.failed
            error := some ("Process exited with code " ++ toString code) }
    | RunResult.raised msg =>
        { st1 with status := Status.failed, error := some msg }
  ((r = RunResult.exited 0 : Bool), { st2 with endTime := some t1 })

/-- The three known models (keys of `model_configs`, lines 184-188, which
coincide with the keys of `training_status`). -/
inductive ModelName : Type
  | drug_classifier
  | authenticity_verifier
  | pill_detector
deriving DecidableEq, Repr

/-- The canonical string key of a known model. -/
def modelKey : ModelName → String
  | ModelName.drug_classifier => "drug_classifier"
  | ModelName.authenticity_verifier => "authenticity_verifier"
  | ModelName.pill_detector => "pill_detector"

/-- Registry lookup: `model_name in model_configs` (line 194). -/
def parseModel (s : String) : Option ModelName :=
  if s = "drug_classifier" then some ModelName.drug_classifier
  else if s = "authenticity_verifier" then some ModelName.authenticity_verifier
  else if s = "pill_detector" then some ModelName.pill_detector
  else none

/-- Point update of the status map. -/
def updateMap (f : ModelName → JobState) (m : ModelName) (st : JobState) :
    ModelName → JobState :=
  fun x => if x = m then st else f x

/-- Result of `train_all_models` (lines 179-209): the two returned name
lists, the final status map, and the ordered trace of all status writes
performed on the map during the loop. -/
structure OrchResult : Type where
  successful : List String
  failed : List String
  statusMap : ModelName → JobState
  trace : List (ModelName × Status)

/-- The loop body of `train_all_models` (lines 193-207): unknown names
are appended to the failed list without running anything (lines
194-197); known names are run through `train_model` and appended to the
successful or failed list by its boolean result (lines 199-207). Each
`train_model` call contributes two status writes to the trace: running,
then the terminal status. -/
def trainAllModelsAux (outcome : ModelName → RunResult) :
    List String → OrchResult → OrchResult
  | [], acc => acc
  | name :: rest, acc =>
    match parseModel name with
    | none =>
        trainAllModelsAux outcome rest
          { acc with failed := acc.failed ++ [name] }
    | some m =>
        let res := train_model 0 1 (outcome m) (acc.statusMap m)
        let acc' : OrchResult :=
          { acc with
            statusMap := updateMap acc.statusMap m res.2,
            trace := acc.trace ++
              [(m, Status.running), (m, finalStatusOf (outcome m))] }
        if res.1 then
          trainAllModelsAux outcome rest
            { acc' with successful := acc'.successful ++ [name] }
        else
          trainAllModelsAux outcome rest
            { acc' with failed := acc'.failed ++ [name] }

/-- `train_all_models` (lines 179-209) run from the freshly constructed
orchestrator state (all jobs pending, lines 38-42). `outcome` is the
oracle giving each known model's subprocess result. -/
def train_all_models (outcome : ModelName → RunResult)
    (models : List String) : OrchResult :=
  trainAllModelsAux outcome models ⟨[], [], fun _ => initialJob, []⟩

/-- The tail of `main` (lines 319-323): `sys.exit(1)` when the failed
list is non-empty, otherwise fall through to normal exit 0. -/
def mainExitCode (failedModels : List String) : Nat :=
  if failedModels.isEmpty then 0 else 1

/-- The Job Runner invocations recorded in the trace: one `running`
write per `train_model` call. -/
def invokedJobs (tr : List (ModelName × Status)) : List ModelName :=
  tr.filterMap fun p => if p.2 = Status.running then some p.1 else none

/-- Per-job view of the trace: the sequence of status values written to
job `m`. -/
def writesFor (m : ModelName) (tr : List (ModelName × Status)) :
    List Status :=
  tr.filterMap fun p => if p.1 = m then some p.2 else none

/-- No re-entry after a terminal state: once a terminal status appears
in the sequence, every later status is terminal. -/
def noReentry : List Status → Bool
  | [] => true
  | s :: rest => if isTerminal s then rest.all isTerminal else noReentry rest

/-- Per-name closed form of the trace contribution of one requested
name. -/
def tracePiece (outcome : ModelName → RunResult) (name : String) :
    List (ModelName × Status) :=
  match parseModel name with
  | none => []
  | some m => [(m, Status.running), (m, finalStatusOf (outcome m))]

/-- Whether one requested name ends up in the successful list: it must
be known and its subprocess must exit 0. -/
def nameOk (outcome : ModelName → RunResult) (name : String) : Bool :=
  match parseModel name with
  | none => false
  | some m => outcome m = RunResult.exited 0

/-- Closed form of the status map after processing a list of names. -/
def mapAfter (outcome : ModelName → RunResult) :
    List String → (ModelName → JobState) → ModelName → JobState
  | [], f => f
  | name :: rest, f =>
      mapAfter outcome rest
        (match parseModel name with
         | none => f
         | some m => updateMap f m (train_model 0 1 (outcome m) (f m)).2)

/-! ## Prerequisite Checker (`check_prerequisites`, lines 44-93) -/

/-- `self.scripts_dir` (line 32). -/
def scriptsDir : String := "training/scripts"

/-- `self.configs_dir` (line 33). -/
def configsDir : String := "training/configs"

/-- `self.data_dir` (line 35). -/
def dataDir : String := "data"

/-- `required_dirs` (line 49): scripts, configs and the data directory
are all required. -/
def requiredDirs : List String := [scriptsDir, configsDir, dataDir]

/-- `required_scripts` resolved against the scripts directory
(lines 56-63). -/
def requiredScriptPaths : List String :=
  ["train_drug_classifier.py", "train_authenticity_verifier.py",
   "train_pill_detector.py"].map fun s => scriptsDir ++ "/" ++ s

/-- `required_configs` resolved against the configs directory
(lines 69-76). -/
def requiredConfigPaths : List String :=
  ["drug_classifier_config.json", "authenticity_config.json",
   "pill_detection_config.json"].map fun c => configsDir ++ "/" ++ c

/-- `data_dirs` (lines 82-85): the two class-level image directories,
checked last and only warned about. -/
def dataSubdirs : List String :=
  ["data/pharmaceutical_images/authentic",
   "data/pharmaceutical_images/counterfeit"]

/-- Every path whose absence makes `check_prerequisites` return False. -/
def requiredPaths : List String :=
  requiredDirs ++ requiredScriptPaths ++ requiredConfigPaths

/-- The first path of `paths` missing from the filesystem `ex`
(each check loop returns at its first missing entry). -/
def firstMissing (ex : String → Bool) (paths : List String) :
    Option String :=
  paths.find? fun p => !(ex p)

/-- `check_prerequisites` (lines 44-93) over the filesystem predicate
`ex`: each loop over required directories, scripts, and configs returns
False at its first missing entry, logging one fatal diagnostic
(lines 50-53, 62-66, 75-79); the data subdirectory loop only logs
warnings and never changes the result (lines 87-90); otherwise the
check returns True (line 93).  Result: (returned bool, fatal
diagnostics, warnings). -/
def check_prerequisites (ex : String → Bool) :
    Bool × List String × List String :=
  match firstMissing ex requiredDirs with
  | some d => (false, ["Required directory missing: " ++ d], [])
  | none =>
    match firstMissing ex requiredScriptPaths with
    | some s => (false, ["Required training script missing: " ++ s], [])
    | none =>
      match firstMissing ex requiredConfigPaths with
      | some c => (false, ["Required config file missing: " ++ c], [])
      | none =>
        (true, [],
          (dataSubdirs.filter fun d => !(ex d)).map
            fun d => "Data directory missing: " ++ d)

/-! ## Job log file (`train_model`, lines 149-157) -/

/-- File open mode; line 150 of the source is `open(log_file_path, 'w')`. -/
inductive OpenMode : Type
  | write
  | append

/-- Content of the file right after opening: `'w'` truncates, `'a'`
would keep the prior content. -/
def openLog : OpenMode → List String → List String
  | OpenMode.write, _ => []
  | OpenMode.append, prior => prior

/-- One log entry (line 155): the timestamp of receipt, a separator, and
the stripped line. -/
def logEntry (ts : String) (raw : String) : String :=
  ts ++ " - " ++ raw.trim

/-- The streaming loop (lines 151-156): every non-empty line read from
the subprocess is stamped with the time of receipt (`ts` maps the line
index to its timestamp text) and written to the end of the file. -/
def streamLines (ts : Nat → String) :
    List String → Nat → List String → List String
  | [], _, file => file
  | l :: rest, i, file =>
      if l = "" then streamLines ts rest (i + 1) file
      else streamLines ts rest (i + 1) (file ++ [logEntry (ts i) l])

/-- The log file content after one `train_model` run whose subprocess
produced `out`, starting from a log file that already held `prior`:
the file is opened in write mode (line 150) and the stream loop appends
the stamped lines. -/
def runJobLog (ts : Nat → String) (prior out : List String) :
    List String :=
  streamLines ts out 0 (openLog OpenMode.write prior)

/-! ## Pair Sampler (`create_siamese_pairs`,
train_authenticity_verifier.py lines 60-88) -/

/-- One random draw from a pool, modelled by an oracle index reduced
modulo the pool size.  When the pool is empty the default is returned,
but every use below is guarded by a pool-size test mirroring the
source. -/
def pick {α : Type} [Inhabited α] (xs : List α) (k : Nat) : α :=
  xs.getD (k % xs.length) default

/-- `create_siamese_pairs` (lines 60-88).  Three loops: `num_pairs // 4`
iterations appending an authentic-authentic pair labelled 1 when the
authentic pool has at least 2 items (lines 66-70); `num_pairs // 2`
iterations appending an authentic-counterfeit pair labelled 0 when both
pools are non-empty (lines 73-78); `num_pairs // 4` iterations appending
a counterfeit-counterfeit pair labelled 0 when the counterfeit pool has
at least 2 items (lines 81-85).  `random.sample` / `random.choice` are
modelled by the index oracles `rAA`, `rAC`, `rCC`.  Returns the pairs
and labels lists, appended to in lockstep as in the source. -/
def create_siamese_pairs {α : Type} [Inhabited α]
    (authentic counterfeit : List α) (numPairs : Nat)
    (rAA rAC rCC : Nat → Nat × Nat) :
    List (α × α) × List Nat :=
  let posPairs := (List.range (numPairs / 4)).filterMap fun i =>
    if 2 ≤ authentic.length then
      some ((pick authentic (rAA i).1, pick authentic (rAA i).2), 1)
    else none
  let negCross := (List.range (numPairs / 2)).filterMap fun i =>
    if 0 < authentic.length ∧ 0 < counterfeit.length then
      some ((pick authentic (rAC i).1, pick counterfeit (rAC i).2), 0)
    else none
  let negCC := (List.range (numPairs / 4)).filterMap fun i =>
    if 2 ≤ counterfeit.length then
      some ((pick counterfeit (rCC i).1, pick counterfeit (rCC i).2), 0)
    else none
  let allPairs := posPairs ++ negCross ++ negCC
  (allPairs.map Prod.fst, allPairs.map Prod.snd)

/-! ## Helper lemmas -/

/-- A `train_model` call always leaves the job in a terminal status. -/
lemma train_model_terminal (t0 t1 : Nat) (r : RunResult) (st : JobState) :
    isTerminal (train_model t0 t1 r st).2.status = true := by
  cases r with
  | exited code =>
      by_cases hc : code = 0 <;> simp [train_model, isTerminal, hc]
  | raised msg => simp [train_model, isTerminal]

/-- The status written by `train_model` is `finalStatusOf` of the
subprocess result. -/
lemma train_model_status (t0 t1 : Nat) (r : RunResult) (st : JobState) :
    (train_model t0 t1 r st).2.status = finalStatusOf r := by
  cases r with
  | exited code =>
      by_cases hc : code = 0 <;> simp [train_model, finalStatusOf, hc]
  | raised msg => simp [train_model, finalStatusOf]

/-- The boolean returned by `train_model` only depends on the
subprocess result. -/
lemma train_model_fst (t0 t1 : Nat) (r : RunResult) (st : JobState) :
    (train_model t0 t1 r st).1 = (r = RunResult.exited 0 : Bool) := rfl

/-- Closed form of the orchestration loop: the successful and failed
lists, the trace and the status map are each obtained compositionally
from the requested names. -/
lemma trainAllModelsAux_spec (outcome : ModelName → RunResult)
    (models : List String) (acc : OrchResult) :
    trainAllModelsAux outcome models acc =
      { successful := acc.successful ++ models.filter (fun n => nameOk outcome n),
        failed := acc.failed ++ models.filter (fun n => !(nameOk outcome n)),
        statusMap := mapAfter outcome models acc.statusMap,
        trace := acc.trace ++ (models.map (tracePiece outcome)).flatten } := by
  induction models generalizing acc with
  | nil => simp [trainAllModelsAux, mapAfter]
  | cons name rest ih =>
    cases hp : parseModel name with
    | none =>
        simp only [trainAllModelsAux, hp, mapAfter, ih, List.filter_cons,
          List.map_cons, List.flatten_cons, nameOk, tracePiece]
        simp [hp, List.append_assoc]
    | some m =>
        simp only [trainAllModelsAux, hp, mapAfter]
        by_cases hr : outcome m = RunResult.exited 0
        · rw [if_pos (by simp [train_model_fst, hr])]
          rw [ih]
          simp only [List.filter_cons, List.map_cons, List.flatten_cons,
            nameOk, tracePiece, hp]
          simp [hr, List.append_assoc]
        · rw [if_neg (by simp [train_model_fst, hr])]
          rw [ih]
          simp only [List.filter_cons, List.map_cons, List.flatten_cons,
            nameOk, tracePiece, hp]
          simp [hr, List.append_assoc]

/-- The status map after the loop keeps a job terminal once terminal,
and makes it terminal whenever some requested name resolves to it. -/
lemma mapAfter_terminal (outcome : ModelName → RunResult)
    (models : List String) (f : ModelName → JobState) (m : ModelName)
    (h : isTerminal (f m).status = true ∨
      ∃ name ∈ models, parseModel name = some m) :
    isTerminal ((mapAfter outcome models f) m).status = true := by
  induction models generalizing f with
  | nil =>
      rcases h with h | ⟨name, hmem, _⟩
      · exact h
      · exact absurd hmem (List.not_mem_nil name)
  | cons name rest ih =>
    simp only [mapAfter]
    cases hp : parseModel name with
    | none =>
        apply ih
        rcases h with h | ⟨n, hmem, hn⟩
        · exact Or.inl h
        · rcases List.mem_cons.mp hmem with rfl | hmem
          · exact absurd hn (by simp [hp])
          · exact Or.inr ⟨n, hmem, hn⟩
    | some m' =>
        apply ih
        by_cases hmm : m = m'
        · subst hmm
          exact Or.inl (by simp [updateMap, train_model_terminal])
        · rcases h with h | ⟨n, hmem, hn⟩
          · exact Or.inl (by simpa [updateMap, hmm] using h)
          · rcases List.mem_cons.mp hmem with rfl | hmem
            · rw [hp] at hn
              exact absurd (Option.some.inj hn).symm hmm
            · exact Or.inr ⟨n, hmem, hn⟩

/-- `parseModel` only recognises the canonical key of each model. -/
lemma parseModel_eq_some {s : String} {m : ModelName}
    (h : parseModel s = some m) : s = modelKey m := by
  unfold parseModel at h
  split_ifs at h with h1 h2 h3
  · injection h with h4; subst h4; simp only [modelKey]; exact h1
  · injection h with h4; subst h4; simp only [modelKey]; exact h2
  · injection h with h4; subst h4; simp only [modelKey]; exact h3

/-- The invoked-jobs projection of a per-name trace piece is the parsed
name. -/
lemma invokedJobs_tracePiece (outcome : ModelName → RunResult)
    (name : String) :
    invokedJobs (tracePiece outcome name) =
      (parseModel name).toList := by
  unfold tracePiece
  cases hp : parseModel name with
  | none => simp [invokedJobs]
  | some m =>
      simp only [invokedJobs, List.filterMap]
      have : finalStatusOf (outcome m) ≠ Status.running := by
        unfold finalStatusOf
        cases outcome m with
        | exited code => by_cases hc : code = 0 <;> simp [hc]
        | raised msg => simp
      simp [this, Option.toList]

/-- `invokedJobs` distributes over trace concatenation. -/
lemma invokedJobs_append (a b : List (ModelName × Status)) :
    invokedJobs (a ++ b) = invokedJobs a ++ invokedJobs b := by
  simp [invokedJobs, List.filterMap_append]

/-- `invokedJobs` of the flattened per-name trace is the list of parsed
names, whatever the subprocess outcomes are. -/
lemma invokedJobs_flatten (outcome : ModelName → RunResult)
    (models : List String) :
    invokedJobs ((models.map (tracePiece outcome)).flatten) =
      models.filterMap parseModel := by
  induction models with
  | nil => simp [invokedJobs]
  | cons name rest ih =>
      rw [List.map_cons, List.flatten_cons, invokedJobs_append,
        invokedJobs_tracePiece, ih, List.filterMap_cons]
      cases hp : parseModel name <;> simp [Option.toList]

/-- Claim C3: for every job run by the Job Runner, exit code 0 makes the
status `completed` and `train_model` return success; a non-zero exit
code makes the status `failed` with the numeric code in the error
detail and returns failure; an exception raised while spawning or
streaming makes the status `failed` with the exception text as the
error detail. -/
theorem train_model_outcome (st : JobState) (t0 t1 : Nat) :
    ((train_model t0 t1 (RunResult.exited 0) st).1 = true ∧
      (train_model t0 t1 (RunResult.exited 0) st).2.status = Status.completed) ∧
    (∀ code : Int, code ≠ 0 →
      (train_model t0 t1 (RunResult.exited code) st).1 = false ∧
      (train_model t0 t1 (RunResult.exited code) st).2.status = Status.failed ∧
      (train_model t0 t1 (RunResult.exited code) st).2.error =
        some ("Process exited with code " ++ toString code)) ∧
    (∀ msg : String,
      (train_model t0 t1 (RunResult.raised msg) st).1 = false ∧
      (train_model t0 t1 (RunResult.raised msg) st).2.status = Status.failed ∧
      (train_model t0 t1 (RunResult.raised msg) st).2.error = some msg) := by
  refine ⟨⟨?_, ?_⟩, fun code hc => ⟨?_, ?_, ?_⟩, fun msg => ⟨?_, ?_, ?_⟩⟩ <;>
    simp [train_model, *]

/-- Witness for C3 at concrete inputs. -/
theorem train_model_outcome_witness :
    ((1 : Int) ≠ 0 ∧
      (train_model 0 1 (RunResult.exited 1) initialJob).1 = false ∧
      (train_model 0 1 (RunResult.exited 1) initialJob).2.status = Status.failed ∧
      (train_model 0 1 (RunResult.exited 1) initialJob).2.error =
        some "Process exited with code 1") ∧
    ((train_model 0 1 (RunResult.exited 0) initialJob).1 = true ∧
      (train_model 0 1 (RunResult.exited 0) initialJob).2.status = Status.completed) ∧
    ((train_model 0 1 (RunResult.raised "spawn failed") initialJob).1 = false ∧
      (train_model 0 1 (RunResult.raised "spawn failed") initialJob).2.error =
        some "spawn failed") := by
  have h := train_model_outcome initialJob 0 1
  have h1 := h.2.1 1 (by decide)
  refine ⟨⟨by decide, h1.1, h1.2.1, ?_⟩, ⟨h.1.1, h.1.2⟩,
    ⟨(h.2.2 "spawn failed").1, (h.2.2 "spawn failed").2.2⟩⟩
  simpa using h1.2.2

/-- Claim C10 (implicit): after `train_model` returns — exit 0, exit
non-zero, or a caught exception — the job's end time is set by the
`finally` clause and its status is terminal; hence after
`train_all_models` returns, no requested known job is left `running`
(its status is terminal). -/
theorem train_model_always_finalized :
    (∀ (t0 t1 : Nat) (r : RunResult) (st : JobState),
      (train_model t0 t1 r st).2.endTime = some t1 ∧
      isTerminal (train_model t0 t1 r st).2.status = true) ∧
    (∀ (outcome : ModelName → RunResult) (models : List String)
      (m : ModelName), (∃ name ∈ models, parseModel name = some m) →
      isTerminal (((train_all_models outcome models).statusMap m).status) = true) := by
  constructor
  · intro t0 t1 r st
    refine ⟨?_, train_model_terminal t0 t1 r st⟩
    cases r with
    | exited code => by_cases hc : code = 0 <;> simp [train_model, hc]
    | raised msg => simp [train_model]
  · intro outcome models m hm
    unfold train_all_models
    rw [trainAllModelsAux_spec]
    exact mapAfter_terminal outcome models _ m (Or.inr hm)

/-- Witness for C10 at concrete inputs. -/
theorem train_model_always_finalized_witness :
    (∃ name ∈ ["pill_detector"], parseModel name = some ModelName.pill_detector) ∧
    isTerminal (((train_all_models (fun _ => RunResult.exited 2)
      ["pill_detector"]).statusMap ModelName.pill_detector).status) = true ∧
    (train_model 0 1 (RunResult.raised "boom") initialJob).2.endTime = some 1 := by
  refine ⟨⟨"pill_detector", by simp, by decide⟩, ?_, ?_⟩
  · exact train_model_always_finalized.2 (fun _ => RunResult.exited 2)
      ["pill_detector"] ModelName.pill_detector
      ⟨"pill_detector", by simp, by decide⟩
  · exact (train_model_always_finalized.1 0 1 (RunResult.raised "boom") initialJob).1

/-- Claim C4: `train_all_models` returns the completed names and the
failed names; a job's failure does not prevent later requested jobs
from being run — the Job Runner is invoked for every known requested
name, in order, independently of the outcomes — and the caller's
process exit status (tail of `main`) is non-zero iff the failed list is
non-empty.  Every requested name lands in exactly one of the two
lists. -/
theorem train_all_models_aggregate (outcome : ModelName → RunResult)
    (models : List String) :
    invokedJobs (train_all_models outcome models).trace =
      models.filterMap parseModel ∧
    (train_all_models outcome models).successful =
      models.filter (fun n => nameOk outcome n) ∧
    (train_all_models outcome models).failed =
      models.filter (fun n => !(nameOk outcome n)) ∧
    (∀ name ∈ models,
      (name ∈ (train_all_models outcome models).successful ∧
        name ∉ (train_all_models outcome models).failed) ∨
      (name ∈ (train_all_models outcome models).failed ∧
        name ∉ (train_all_models outcome models).successful)) ∧
    (mainExitCode (train_all_models outcome models).failed ≠ 0 ↔
      (train_all_models outcome models).failed ≠ []) := by
  unfold train_all_models
  rw [trainAllModelsAux_spec]
  refine ⟨by simpa using invokedJobs_flatten outcome models, by simp, by simp,
    ?_, ?_⟩
  · intro name hmem
    by_cases hok : nameOk outcome name
    · exact Or.inl ⟨by simp [List.mem_filter, hmem, hok],
        by simp [List.mem_filter, hok]⟩
    · exact Or.inr ⟨by simp [List.mem_filter, hmem, hok],
        by simp [List.mem_filter, hok]⟩
  · unfold mainExitCode
    by_cases hf : (models.filter (fun n => !(nameOk outcome n))) = [] <;>
      simp [hf, List.isEmpty_iff]

/-- Witness for C4 at a concrete run: three requested jobs, the second
one exiting with code 1. -/
theorem train_all_models_aggregate_witness :
    (train_all_models
      (fun m => if m = ModelName.authenticity_verifier
        then RunResult.exited 1 else RunResult.exited 0)
      ["drug_classifier", "authenticity_verifier", "pill_detector"]).successful =
      ["drug_classifier", "pill_detector"] ∧
    (train_all_models
      (fun m => if m = ModelName.authenticity_verifier
        then RunResult.exited 1 else RunResult.exited 0)
      ["drug_classifier", "authenticity_verifier", "pill_detector"]).failed =
      ["authenticity_verifier"] ∧
    mainExitCode ["authenticity_verifier"] ≠ 0 := by
  have h := train_all_models_aggregate
    (fun m => if m = ModelName.authenticity_verifier
      then RunResult.exited 1 else RunResult.exited 0)
    ["drug_classifier", "authenticity_verifier", "pill_detector"]
  refine ⟨?_, ?_, ?_⟩
  · rw [h.2.1]; decide
  · rw [h.2.2.1]; decide
  · have h2 := h.2.2.2.2
    rw [h.2.2.1] at h2
    have : (["authenticity_verifier"] : List String) =
        List.filter (fun n => !(nameOk (fun m =>
          if m = ModelName.authenticity_verifier
          then RunResult.exited 1 else RunResult.exited 0) n))
          ["drug_classifier", "authenticity_verifier", "pill_detector"] := by
      decide
    rw [this]
    exact h2.mpr (by decide)

/-- Claim C9: a requested name absent from the job registry is recorded
as an immediate failure, the Job Runner is never invoked for it (it
leaves no trace entries), and the loop continues with the following
requested names (whose contributions are unchanged). -/
theorem unknown_model_immediate_failure (outcome : ModelName → RunResult)
    (pre post : List String) (bad : String)
    (h : parseModel bad = none) :
    bad ∈ (train_all_models outcome (pre ++ bad :: post)).failed ∧
    (train_all_models outcome (pre ++ bad :: post)).trace =
      (train_all_models outcome pre).trace ++
        (train_all_models outcome post).trace ∧
    (train_all_models outcome (pre ++ bad :: post)).successful =
      (train_all_models outcome pre).successful ++
        (train_all_models outcome post).successful := by
  unfold train_all_models
  rw [trainAllModelsAux_spec, trainAllModelsAux_spec, trainAllModelsAux_spec]
  have hok : nameOk outcome bad = false := by simp [nameOk, h]
  refine ⟨?_, ?_, ?_⟩
  · simp [List.mem_filter, hok]
  · simp [tracePiece, h]
  · simp [List.filter_append, List.filter_cons, hok]

/-- Witness for C9 at a concrete input. -/
theorem unknown_model_immediate_failure_witness :
    parseModel "not_a_model" = none ∧
    "not_a_model" ∈ (train_all_models (fun _ => RunResult.exited 0)
      (["drug_classifier"] ++ "not_a_model" :: ["pill_detector"])).failed := by
  refine ⟨by decide, ?_⟩
  exact (unknown_model_immediate_failure (fun _ => RunResult.exited 0)
    ["drug_classifier"] ["pill_detector"] "not_a_model" (by decide)).1

/-- `writesFor` distributes over trace concatenation. -/
lemma writesFor_append (m : ModelName) (a b : List (ModelName × Status)) :
    writesFor m (a ++ b) = writesFor m a ++ writesFor m b := by
  simp [writesFor, List.filterMap_append]

/-- A per-name trace piece writes nothing to a job no requested name
resolves to. -/
lemma writesFor_flatten_nil (outcome : ModelName → RunResult)
    (ms : List String) (m : ModelName)
    (h : ∀ name ∈ ms, parseModel name ≠ some m) :
    writesFor m ((ms.map (tracePiece outcome)).flatten) = [] := by
  induction ms with
  | nil => simp [writesFor]
  | cons name rest ih =>
      rw [List.map_cons, List.flatten_cons, writesFor_append]
      have h1 : parseModel name ≠ some m := h name (List.mem_cons_self ..)
      have h2 : writesFor m (tracePiece outcome name) = [] := by
        unfold tracePiece
        cases hp : parseModel name with
        | none => simp [writesFor]
        | some m' =>
            have : m' ≠ m := fun he => h1 (by rw [hp, he])
            simp [writesFor, this]
      rw [h2, ih (fun n hn => h n (List.mem_cons_of_mem _ hn))]
      simp

/-- The final status written for a run is terminal. -/
lemma finalStatusOf_terminal (r : RunResult) :
    isTerminal (finalStatusOf r) = true := by
  cases r with
  | exited code => by_cases hc : code = 0 <;> simp [finalStatusOf, isTerminal, hc]
  | raised msg => simp [finalStatusOf, isTerminal]

/-- `pending, running, x` never re-enters after a terminal state. -/
lemma noReentry_pending_running (x : Status) :
    noReentry [Status.pending, Status.running, x] = true := by
  cases x <;> simp [noReentry, isTerminal]

/-- Claim C7 as amended: for every sequence of pairwise-distinct
requested job names, each job's status transitions are monotonic along
pending → running → \x7bcompleted, failed\x7d: once terminal, the status is
never written back to pending or running. -/
theorem status_no_reentry_of_nodup (outcome : ModelName → RunResult)
    (models : List String) (h : models.Nodup) (m : ModelName) :
    noReentry (Status.pending ::
      writesFor m (train_all_models outcome models).trace) = true := by
  unfold train_all_models
  rw [trainAllModelsAux_spec]
  simp only [List.nil_append]
  induction models with
  | nil => simp [writesFor, noReentry, isTerminal]
  | cons name rest ih =>
      rw [List.map_cons, List.flatten_cons, writesFor_append]
      have hrest : rest.Nodup := (List.nodup_cons.mp h).2
      have hnotmem : name ∉ rest := (List.nodup_cons.mp h).1
      cases hp : parseModel name with
      | none =>
          have : writesFor m (tracePiece outcome name) = [] := by
            simp [tracePiece, hp, writesFor]
          rw [this, List.nil_append]
          exact ih hrest
      | some m' =>
          by_cases hmm : m' = m
          · subst hmm
            have hkey : name = modelKey m' := parseModel_eq_some hp
            have hnone : writesFor m'
                ((rest.map (tracePiece outcome)).flatten) = [] := by
              apply writesFor_flatten_nil
              intro n hn he
              have : n = modelKey m' := parseModel_eq_some he
              exact hnotmem (by rw [hkey, ← this]; exact hn)
            have hpiece : writesFor m' (tracePiece outcome name) =
                [Status.running, finalStatusOf (outcome m')] := by
              simp [tracePiece, hp, writesFor]
            rw [hpiece, hnone]
            simpa using noReentry_pending_running (finalStatusOf (outcome m'))
          · have : writesFor m (tracePiece outcome name) = [] := by
              simp [tracePiece, hp, writesFor, hmm]
            rw [this, List.nil_append]
            exact ih hrest

/-- Witness for the amended C7 at a concrete duplicate-free input. -/
theorem status_no_reentry_witness :
    (["drug_classifier", "pill_detector"] : List String).Nodup ∧
    noReentry (Status.pending ::
      writesFor ModelName.drug_classifier
        (train_all_models (fun _ => RunResult.exited 1)
          ["drug_classifier", "pill_detector"]).trace) = true := by
  refine ⟨by decide, ?_⟩
  exact status_no_reentry_of_nodup (fun _ => RunResult.exited 1)
    ["drug_classifier", "pill_detector"] (by decide)
    ModelName.drug_classifier

/-- Counterexample to C7 as stated: the CLI accepts a repeated job name
(`argparse` validates each element of `--models` separately), and on
the request list `[drug_classifier, drug_classifier]` the job is set
back to running after having reached the terminal state failed. -/
theorem status_reentry_on_duplicate :
    noReentry (Status.pending ::
      writesFor ModelName.drug_classifier
        (train_all_models (fun _ => RunResult.exited 1)
          ["drug_classifier", "drug_classifier"]).trace) = false := by
  decide

/-- A filesystem where exactly the data directory and its two image
subdirectories are absent, and everything else exists. -/
def exOnlyDataMissing : String → Bool := fun p =>
  !(p = "data" || p = "data/pharmaceutical_images/authentic" ||
    p = "data/pharmaceutical_images/counterfeit")

/-- Counterexample to C6 as stated: with only the data directories
absent (the data directory itself and its two image subdirectories),
`check_prerequisites` returns False — `self.data_dir` is in
`required_dirs` (line 49), so its absence is fatal, contrary to the
claim that the check still returns true. -/
theorem check_prerequisites_data_dir_fatal :
    (check_prerequisites exOnlyDataMissing).1 = false ∧
    (check_prerequisites exOnlyDataMissing).2.1 =
      ["Required directory missing: data"] := by
  constructor <;> rfl

/-- Claim C6 as amended: a missing required directory (scripts, configs
or the top-level data directory) or a missing required script/config
file makes `check_prerequisites` return False with a fatal diagnostic;
only the two class-level image data subdirectories are non-fatal
warnings — the check returns True when only those are absent. -/
theorem check_prerequisites_classification :
    (∀ ex : String → Bool, (∀ p ∈ requiredPaths, ex p = true) →
      (check_prerequisites ex).1 = true ∧
      (check_prerequisites ex).2.1 = [] ∧
      (check_prerequisites ex).2.2 =
        (dataSubdirs.filter fun d => !(ex d)).map
          (fun d => "Data directory missing: " ++ d)) ∧
    (∀ ex : String → Bool, (∃ p ∈ requiredPaths, ex p = false) →
      (check_prerequisites ex).1 = false ∧
      (check_prerequisites ex).2.1 ≠ []) := by
  constructor
  · intro ex hall
    have hd : firstMissing ex requiredDirs = none := by
      apply List.find?_eq_none.mpr
      intro p hp
      simp [hall p (by simp [requiredPaths, List.mem_append]; tauto)]
    have hs : firstMissing ex requiredScriptPaths = none := by
      apply List.find?_eq_none.mpr
      intro p hp
      simp [hall p (by simp [requiredPaths, List.mem_append]; tauto)]
    have hc : firstMissing ex requiredConfigPaths = none := by
      apply List.find?_eq_none.mpr
      intro p hp
      simp [hall p (by simp [requiredPaths, List.mem_append]; tauto)]
    simp [check_prerequisites, hd, hs, hc]
  · intro ex hmiss
    unfold check_prerequisites
    cases hd : firstMissing ex requiredDirs with
    | some d => simp
    | none =>
      cases hs : firstMissing ex requiredScriptPaths with
      | some s => simp
      | none =>
        cases hc : firstMissing ex requiredConfigPaths with
        | some c => simp
        | none =>
          exfalso
          obtain ⟨p, hp, hpf⟩ := hmiss
          have hall : ∀ q ∈ requiredPaths, ¬ (!(ex q)) = true := by
            intro q hq
            rcases (List.mem_append.mp hq) with hq' | hq'
            · rcases List.mem_append.mp hq' with hq'' | hq''
              · exact List.find?_eq_none.mp hd q hq''
              · exact List.find?_eq_none.mp hs q hq''
            · exact List.find?_eq_none.mp hc q hq'
          have := hall p (by simpa [requiredPaths] using hp)
          simp [hpf] at this

/-- Witness for the amended C6: a filesystem with everything present
(result True, no warnings) and one with a required script missing
(result False, fatal diagnostic). -/
theorem check_prerequisites_classification_witness :
    (∀ p ∈ requiredPaths, (fun _ => true) p = true) ∧
    (check_prerequisites (fun _ => true)).1 = true ∧
    (∃ p ∈ requiredPaths,
      (fun q => (q ≠ "training/scripts/train_pill_detector.py" : Bool)) p
        = false) ∧
    (check_prerequisites
      (fun q => (q ≠ "training/scripts/train_pill_detector.py" : Bool))).1
        = false := by
  refine ⟨fun p _ => rfl, ?_, ?_, ?_⟩
  · exact (check_prerequisites_classification.1 (fun _ => true)
      (fun p _ => rfl)).1
  · exact ⟨"training/scripts/train_pill_detector.py", by decide, by decide⟩
  · exact (check_prerequisites_classification.2
      (fun q => (q ≠ "training/scripts/train_pill_detector.py" : Bool))
      ⟨"training/scripts/train_pill_detector.py", by decide, by decide⟩).1

/-- The streaming loop over a concatenation of line batches. -/
lemma streamLines_append (ts : Nat → String) (xs ys : List String)
    (i : Nat) (file : List String) :
    streamLines ts (xs ++ ys) i file =
      streamLines ts ys (i + xs.length) (streamLines ts xs i file) := by
  induction xs generalizing i file with
  | nil => simp [streamLines]
  | cons l rest ih =>
      by_cases hl : l = "" <;>
        simp [streamLines, hl, ih, Nat.add_assoc, Nat.add_comm 1 rest.length]

/-- A fixed timestamp oracle used in concrete log-file runs. -/
def tsDemo : Nat → String := fun i => "2024-01-01T00:00:0" ++ toString i

/-- Counterexample to C8 as stated: the log file is opened with mode
`'w'` (line 150), so an entry present in the file before the run is
gone afterwards — running a job erases the previous content. -/
theorem log_file_truncated :
    "old entry" ∉ runJobLog tsDemo ["old entry"] ["epoch 1"] := by
  decide

/-- Claim C8 as amended: the per-job log file is truncated at the start
of each run (the content after the run does not depend on what the
file held before), and only within a single run is it append-only:
each further non-empty output line appends exactly one
`<timestamp> - <line>` entry at the end. -/
theorem log_file_write_mode (ts : Nat → String)
    (prior1 prior2 out : List String) (l : String) :
    runJobLog ts prior1 out = runJobLog ts prior2 out ∧
    (l ≠ "" → runJobLog ts prior1 (out ++ [l]) =
      runJobLog ts prior1 out ++ [logEntry (ts out.length) l]) := by
  constructor
  · rfl
  · intro hl
    unfold runJobLog
    rw [streamLines_append]
    simp [streamLines, hl]

/-- Witness for the amended C8 at concrete inputs. -/
theorem log_file_write_mode_witness :
    ("final loss 0.1" : String) ≠ "" ∧
    runJobLog tsDemo ["stale"] (["epoch 1"] ++ ["final loss 0.1"]) =
      runJobLog tsDemo ["stale"] ["epoch 1"] ++
        [logEntry (tsDemo 1) "final loss 0.1"] ∧
    runJobLog tsDemo ["stale"] ["epoch 1"] =
      runJobLog tsDemo [] ["epoch 1"] := by
  have h := log_file_write_mode tsDemo ["stale"] [] ["epoch 1"]
    "final loss 0.1"
  exact ⟨by decide, h.2 (by decide), h.1⟩

/-- Length of a batch whose guard does not depend on the iteration
index: the full iteration count when the pool is big enough, zero
otherwise. -/
lemma guardedBatch_length {γ : Type} (k : Nat) (c : Prop) [Decidable c]
    (f : Nat → γ) :
    ((List.range k).filterMap fun i =>
      if c then some (f i) else none).length = if c then k else 0 := by
  by_cases hc : c
  · simp only [hc, if_true]
    rw [show (fun i => some (f i)) = some ∘ f from rfl, List.filterMap_eq_map]
    simp
  · simp [hc]

/-- Every element of a guarded batch is produced by the draw
function. -/
lemma guardedBatch_mem {γ : Type} {k : Nat} {c : Prop} [Decidable c]
    {f : Nat → γ} {x : γ}
    (hx : x ∈ (List.range k).filterMap fun i =>
      if c then some (f i) else none) :
    ∃ i, x = f i := by
  obtain ⟨i, _, hfi⟩ := List.mem_filterMap.mp hx
  by_cases hc : c
  · rw [if_pos hc] at hfi
    exact ⟨i, (Option.some.inj hfi).symm⟩
  · rw [if_neg hc] at hfi
    exact absurd hfi (by simp)

/-- Claim C5: for every authentic pool, counterfeit pool and `numPairs`
(and all random draws), `create_siamese_pairs` returns pairs and labels
lists of equal length, at most `numPairs` long, with every label 0
or 1; a batch whose pool is below its minimum size contributes nothing,
so with an empty counterfeit pool only label-1 same-class pairs are
produced — exactly `numPairs / 4` of them when the authentic pool has
at least 2 items. -/
theorem create_siamese_pairs_bounds {α : Type} [Inhabited α]
    (authentic counterfeit : List α) (numPairs : Nat)
    (rAA rAC rCC : Nat → Nat × Nat) :
    (create_siamese_pairs authentic counterfeit numPairs rAA rAC rCC).1.length =
      (create_siamese_pairs authentic counterfeit numPairs rAA rAC rCC).2.length ∧
    (create_siamese_pairs authentic counterfeit numPairs rAA rAC rCC).1.length ≤
      numPairs ∧
    (∀ l ∈ (create_siamese_pairs authentic counterfeit numPairs rAA rAC rCC).2,
      l = 0 ∨ l = 1) ∧
    (counterfeit = [] →
      (∀ l ∈ (create_siamese_pairs authentic counterfeit numPairs rAA rAC rCC).2,
        l = 1) ∧
      (2 ≤ authentic.length →
        (create_siamese_pairs authentic counterfeit numPairs rAA rAC rCC).1.length =
          numPairs / 4)) := by
  unfold create_siamese_pairs
  refine ⟨by simp, ?_, ?_, ?_⟩
  · simp only [List.length_map, List.length_append]
    rw [guardedBatch_length, guardedBatch_length, guardedBatch_length]
    by_cases h1 : 2 ≤ authentic.length <;>
      by_cases h2 : 0 < authentic.length ∧ 0 < counterfeit.length <;>
        by_cases h3 : 2 ≤ counterfeit.length <;>
          simp [h1, h2, h3] <;> omega
  · intro l hl
    simp only [List.mem_map, List.mem_append] at hl
    obtain ⟨x, hmem, hlx⟩ := hl
    rcases hmem with (hx | hx) | hx <;>
      · obtain ⟨i, rfl⟩ := guardedBatch_mem hx
        simp at hlx
        omega
  · intro hcf
    subst hcf
    constructor
    · intro l hl
      simp only [List.mem_map, List.mem_append] at hl
      obtain ⟨x, hmem, hlx⟩ := hl
      rcases hmem with (hx | hx) | hx
      · obtain ⟨i, rfl⟩ := guardedBatch_mem hx
        simp at hlx
        omega
      · simp at hx
      · simp at hx
    · intro hauth
      simp only [List.length_map, List.length_append]
      rw [guardedBatch_length, guardedBatch_length, guardedBatch_length]
      simp [hauth]

/-- Witness for C5 at concrete inputs: authentic pool of two items,
empty counterfeit pool, `numPairs = 8`. -/
theorem create_siamese_pairs_bounds_witness :
    (([] : List Nat) = [] ∧ 2 ≤ ([10, 20] : List Nat).length) ∧
    (∀ l ∈ (create_siamese_pairs [10, 20] ([] : List Nat) 8
      (fun _ => (0, 1)) (fun _ => (0, 0)) (fun _ => (0, 0))).2, l = 1) ∧
    (create_siamese_pairs [10, 20] ([] : List Nat) 8
      (fun _ => (0, 1)) (fun _ => (0, 0)) (fun _ => (0, 0))).1.length = 2 := by
  have h := create_siamese_pairs_bounds [10, 20] ([] : List Nat) 8
    (fun _ => (0, 1)) (fun _ => (0, 0)) (fun _ => (0, 0))
  have h4 := h.2.2.2 rfl
  exact ⟨⟨rfl, by decide⟩, h4.1, h4.2 (by decide)⟩

/-- Claim C2: a ratio triple whose sum differs from 1.0 by more than
1e-6 makes `split_dataset` fail with the validation error before any
filesystem write (no directory created, no file copied); a triple
within the tolerance passes validation. -/
theorem split_dataset_validation :
    (∀ (a b c : ℚ) (tree : ImagesTree)
      (shuffle : List String → List String),
      1/1000000 < |a + b + c - 1| →
      split_dataset a b c tree shuffle =
        (Except.error "Ratios must sum to 1.0", [])) ∧
    (∀ (a b c : ℚ) (tree : ImagesTree)
      (shuffle : List String → List String),
      |a + b + c - 1| ≤ 1/1000000 →
      (split_dataset a b c tree shuffle).1 = Except.ok ()) := by
  constructor
  · intro a b c tree shuffle h
    unfold split_dataset
    rw [if_pos h]
  · intro a b c tree shuffle h
    unfold split_dataset
    rw [if_neg (not_lt.mpr h)]

/-- The spec's invalid example triple misses 1.0 by 0.05. -/
lemma absGapExample : |(7:ℚ)/10 + 1/5 + 1/20 - 1| = 1/20 := by
  rw [show (7:ℚ)/10 + 1/5 + 1/20 - 1 = -(1/20) from by norm_num, abs_neg,
    abs_of_nonneg (by norm_num : (0:ℚ) ≤ 1/20)]

/-- Witness for C2: the triple (0.7, 0.2, 0.05) of the spec fails with
no effects; the triple (0.7, 0.2, 0.1) passes validation. -/
theorem split_dataset_validation_witness :
    ((1:ℚ)/1000000 < |(7:ℚ)/10 + 1/5 + 1/20 - 1| ∧
      split_dataset (7/10) (1/5) (1/20)
        ⟨some [("paracetamol", ["a.jpg", "b.jpg"])], none⟩ id =
        (Except.error "Ratios must sum to 1.0", [])) ∧
    (|(7:ℚ)/10 + 1/5 + 1/10 - 1| ≤ 1/1000000 ∧
      (split_dataset (7/10) (1/5) (1/10)
        ⟨some [("paracetamol", ["a.jpg", "b.jpg"])], none⟩ id).1 =
        Except.ok ()) := by
  refine ⟨⟨by rw [absGapExample]; norm_num, ?_⟩, ⟨by norm_num, ?_⟩⟩
  · exact split_dataset_validation.1 _ _ _ _ _
      (by rw [absGapExample]; norm_num)
  · exact split_dataset_validation.2 _ _ _ _ _ (by norm_num)

/-- Counterexample to C1 as stated: the triple (0.8, 0.4, -0.2) sums to
1.0 exactly (well within the 1e-6 tolerance, so it passes validation,
also under IEEE doubles), yet on a 10-item category the val split gets
only 2 items, not the floor(10 x 0.4) = 4 the claim promises: the first
8 go to train and only 2 remain. -/
theorem splitCategory_val_short :
    (|(4:ℚ)/5 + 2/5 + (-1)/5 - 1| ≤ 1/1000000 ∧
      (0:ℚ) ≤ 4/5 ∧ (0:ℚ) ≤ 2/5) ∧
    (⌊((List.range 10).length : ℚ) * (2/5)⌋).toNat = 4 ∧
    (splitCategory (List.range 10) (4/5) (2/5)).2.1.length = 2 ∧
    (splitCategory (List.range 10) (4/5) (2/5)).2.1.length ≠
      (⌊((List.range 10).length : ℚ) * (2/5)⌋).toNat := by
  have hv : (⌊((List.range 10).length : ℚ) * (2/5)⌋).toNat = 4 := by
    simp only [List.length_range]
    norm_num
    decide
  have hl : (splitCategory (List.range 10) (4/5) (2/5)).2.1.length = 2 := by
    simp only [splitCategory, List.length_range]
    norm_num
    decide
  exact ⟨⟨by norm_num, by norm_num, by norm_num⟩, hv, hl, by omega⟩

/-- Claim C1 as amended: for every category and every ratio triple with
nonnegative train and val ratios, train_ratio + val_ratio ≤ 1, and sum
within 1e-6 of 1.0, the split takes the first floor(n x train_ratio)
shuffled items for train, the next floor(n x val_ratio) for val, and
all remaining items for test; the three counts sum to n exactly and no
item is assigned to more than one split. -/
theorem splitCategory_partition {α : Type} (files : List α) (a b c : ℚ)
    (ha : 0 ≤ a) (hb : 0 ≤ b) (hab : a + b ≤ 1)
    (_hsum : |a + b + c - 1| ≤ 1/1000000) (hnd : files.Nodup) :
    (splitCategory files a b).1 =
      files.take (⌊(files.length : ℚ) * a⌋).toNat ∧
    (splitCategory files a b).2.1 =
      (files.drop (⌊(files.length : ℚ) * a⌋).toNat).take
        (⌊(files.length : ℚ) * b⌋).toNat ∧
    (splitCategory files a b).2.2 =
      files.drop ((⌊(files.length : ℚ) * a⌋).toNat +
        (⌊(files.length : ℚ) * b⌋).toNat) ∧
    (splitCategory files a b).1.length =
      (⌊(files.length : ℚ) * a⌋).toNat ∧
    (splitCategory files a b).2.1.length =
      (⌊(files.length : ℚ) * b⌋).toNat ∧
    (splitCategory files a b).1.length +
      (splitCategory files a b).2.1.length +
      (splitCategory files a b).2.2.length = files.length ∧
    (∀ x : α,
      (x ∈ (splitCategory files a b).1 →
        x ∉ (splitCategory files a b).2.1 ∧
        x ∉ (splitCategory files a b).2.2) ∧
      (x ∈ (splitCategory files a b).2.1 →
        x ∉ (splitCategory files a b).2.2)) := by
  have hq0 : (0:ℚ) ≤ (files.length : ℚ) := by positivity
  have hna : (0:ℚ) ≤ (files.length : ℚ) * a := mul_nonneg hq0 ha
  have hnb : (0:ℚ) ≤ (files.length : ℚ) * b := mul_nonneg hq0 hb
  have htZ0 : 0 ≤ ⌊(files.length : ℚ) * a⌋ := Int.floor_nonneg.mpr hna
  have hvZ0 : 0 ≤ ⌊(files.length : ℚ) * b⌋ := Int.floor_nonneg.mpr hnb
  have hsumZ : ⌊(files.length : ℚ) * a⌋ + ⌊(files.length : ℚ) * b⌋ ≤
      (files.length : ℤ) := by
    have h1 : (files.length : ℚ) * a + (files.length : ℚ) * b ≤
        (files.length : ℚ) := by
      have h2 := mul_le_mul_of_nonneg_left hab hq0
      calc (files.length : ℚ) * a + (files.length : ℚ) * b
          = (files.length : ℚ) * (a + b) := by ring
        _ ≤ (files.length : ℚ) * 1 := h2
        _ = (files.length : ℚ) := by ring
    have h3 : ((⌊(files.length : ℚ) * a⌋ + ⌊(files.length : ℚ) * b⌋ :
        ℤ) : ℚ) ≤ ((files.length : ℤ) : ℚ) := by
      push_cast
      have hfa := Int.floor_le ((files.length : ℚ) * a)
      have hfb := Int.floor_le ((files.length : ℚ) * b)
      linarith
    exact_mod_cast h3
  have hle : (⌊(files.length : ℚ) * a⌋).toNat +
      (⌊(files.length : ℚ) * b⌋).toNat ≤ files.length := by omega
  have hsplit : files =
      (splitCategory files a b).1 ++ (splitCategory files a b).2.1 ++
        (splitCategory files a b).2.2 := by
    simp only [splitCategory]
    rw [List.append_assoc, ← List.drop_drop, List.take_append_drop,
      List.take_append_drop]
  refine ⟨rfl, rfl, rfl, ?_, ?_, ?_, ?_⟩
  · simp only [splitCategory, List.length_take]
    omega
  · simp only [splitCategory, List.length_take, List.length_drop]
    omega
  · simp only [splitCategory, List.length_take, List.length_drop]
    omega
  · rw [hsplit] at hnd
    have h1 := List.nodup_append.mp hnd
    have h2 := List.nodup_append.mp h1.1
    intro x
    exact ⟨fun hx => ⟨fun hy => h2.2.2 hx hy,
        fun hz => h1.2.2 (List.mem_append_left _ hx) hz⟩,
      fun hy hz => h1.2.2 (List.mem_append_right _ hy) hz⟩

/-- Witness for the amended C1: 10 items with ratios (0.7, 0.2, 0.1)
give exactly 7 train, 2 val, 1 test. -/
theorem splitCategory_partition_witness :
    ((0:ℚ) ≤ 7/10 ∧ (0:ℚ) ≤ 1/5 ∧ (7:ℚ)/10 + 1/5 ≤ 1 ∧
      |(7:ℚ)/10 + 1/5 + 1/10 - 1| ≤ 1/1000000 ∧ (List.range 10).Nodup) ∧
    (splitCategory (List.range 10) (7/10) (1/5)).1.length = 7 ∧
    (splitCategory (List.range 10) (7/10) (1/5)).2.1.length = 2 ∧
    (splitCategory (List.range 10) (7/10) (1/5)).2.2.length = 1 := by
  have h := splitCategory_partition (List.range 10) (7/10) (1/5) (1/10)
    (by norm_num) (by norm_num) (by norm_num) (by norm_num)
    (List.nodup_range 10)
  have ht : (⌊((List.range 10).length : ℚ) * (7/10)⌋).toNat = 7 := by
    simp only [List.length_range]
    norm_num
    decide
  have hv : (⌊((List.range 10).length : ℚ) * (1/5)⌋).toNat = 2 := by
    simp only [List.length_range]
    norm_num
    decide
  have hsum3 := h.2.2.2.2.2.1
  rw [h.2.2.2.1, h.2.2.2.2.1, ht, hv, List.length_range] at hsum3
  refine ⟨⟨by norm_num, by norm_num, by norm_num, by norm_num,
    List.nodup_range 10⟩, ?_, ?_, ?_⟩
  · rw [h.2.2.2.1, ht]
  · rw [h.2.2.2.2.1, hv]
  · omega

example : splitCategory (List.range 10) (7/10) (1/5) =
    ([0,1,2,3,4,5,6], [7,8], [9]) := by
  simp only [splitCategory, List.length_range]
  norm_num
  decide
example : splitCategory (List.range 10) (4/5) (2/5) =
    ([0,1,2,3,4,5,6,7], [8,9], []) := by
  simp only [splitCategory, List.length_range]
  norm_num
  decide
